import Mathlib

/-!
Verification of the nodeImageCombiner core.

The repository normalizes two decoded images to a common size and combines
them column-wise.  The core functions embedded here are:

* combineImages (src/imageCombiner.ts, lines 55-83): allocates a canvas with
  the first image size, copies the first image into it, and then, for every
  even column x and every row y, overwrites the red, green and blue bytes at
  index i = (y * img1.width + x) * 4 with the bytes of the second image at
  index j = (y * img2.width + x) * 4.  The alpha byte is never written.

* loadAndResizeImage (src/imageCombiner.ts, lines 39-52): stretch-mode
  normalization; creates a canvas of exactly the requested target size and
  lets the external canvas library draw the source image into it.

* loadAndResizeImage (src/imageCombiner.js, lines 20-40 and
  src/unnamed/part_001): aspect-fit normalization; its dimension arithmetic
  is embedded as aspectFitSize below.

* processImages (src/imageCombiner.ts, lines 147-172): the stretch-mode
  pipeline; the common size is the componentwise minimum of the two natural
  sizes.

Pixel buffers are modelled as the flat byte sequence that getImageData
exposes: row-major, four bytes (red, green, blue, alpha) per pixel.  A read
of the byte sequence outside its range models a JS typed-array read of
undefined, which the subsequent typed-array store coerces to 0; this is why
reads use getD with default 0.  The external canvas library (createCanvas,
drawImage resampling, image decoding) is abstracted: drawImage of a source
onto a same-sized canvas at the origin is an exact copy of its bytes, and
the stretch resampling performed by drawImage with a target rectangle is an
arbitrary parameter of the embedding, since only the produced dimensions
matter to the claims.
-/

/-- In-memory canvas: width, height, and the RGBA byte sequence that
getImageData exposes (row-major, four bytes per pixel). -/
structure Canvas where
  width : Nat
  height : Nat
  data : List Nat
deriving DecidableEq

/-- Byte c (0 = red, 1 = green, 2 = blue, 3 = alpha) of the pixel at column
x, row y of a canvas, indexed exactly as the loop in combineImages indexes
pixel data; out-of-range reads yield 0. -/
def channel (img : Canvas) (x y c : Nat) : Nat :=
  img.data.getD ((y * img.width + x) * 4 + c) 0

/-- One iteration of the inner loop body of combineImages: writes the red,
green and blue bytes at destination index (y * w1 + x) * 4 from source index
(y * w2 + x) * 4.  The alpha byte at offset 3 is not written. -/
def combineStep (w1 w2 : Nat) (d2 : List Nat) (x y : Nat) (d1 : List Nat) : List Nat :=
  ((d1.set ((y * w1 + x) * 4) (d2.getD ((y * w2 + x) * 4) 0)).set
      ((y * w1 + x) * 4 + 1) (d2.getD ((y * w2 + x) * 4 + 1) 0)).set
    ((y * w1 + x) * 4 + 2) (d2.getD ((y * w2 + x) * 4 + 2) 0)

/-- Inner loop of combineImages: for y = 0 .. n - 1 run combineStep at
column x. -/
def colLoop (w1 w2 : Nat) (d2 : List Nat) (x n : Nat) (d1 : List Nat) : List Nat :=
  (List.range n).foldl (fun d y => combineStep w1 w2 d2 x y d) d1

/-- Double loop of combineImages: for x = 0, 2, 4, ... < w1 (the for loop
with step 2) run the inner row loop. -/
def combineData (w1 h1 w2 : Nat) (d2 d1 : List Nat) : List Nat :=
  ((List.range w1).filter (fun x => decide (x % 2 = 0))).foldl
    (fun d x => colLoop w1 w2 d2 x h1 d) d1

/-- combineImages from src/imageCombiner.ts lines 55-83: a canvas of the
first image dimensions whose data starts as the first image data (drawImage
of img1 at the origin followed by getImageData) and is then updated by the
double loop.  There is no dimension comparison anywhere in the function. -/
def combineImages (img1 img2 : Canvas) : Canvas :=
  { width := img1.width
    height := img1.height
    data := combineData img1.width img1.height img2.width img2.data img1.data }

/-- Stretch-mode loadAndResizeImage from src/imageCombiner.ts lines 39-52:
createCanvas of exactly the requested target size, then drawImage of the
decoded source scaled to that size.  The decoded source is the img argument
and the external resampling performed by drawImage is the resample
argument; the function itself performs no validation of the target size. -/
def loadAndResizeImage (img : Canvas) (targetWidth targetHeight : Nat)
    (resample : Canvas → Nat → Nat → List Nat) : Canvas :=
  { width := targetWidth
    height := targetHeight
    data := resample img targetWidth targetHeight }

/-- processImages from src/imageCombiner.ts lines 147-172: the common size
is the componentwise minimum of the two decoded natural sizes, both images
are stretch-normalized to it, and the results are combined. -/
def processImages (img1 img2 : Canvas)
    (resample : Canvas → Nat → Nat → List Nat) : Canvas :=
  combineImages
    (loadAndResizeImage img1 (min img1.width img2.width)
      (min img1.height img2.height) resample)
    (loadAndResizeImage img2 (min img1.width img2.width)
      (min img1.height img2.height) resample)

/-- Rounding as Math.round performs it on the nonnegative values that occur
here: floor of the argument plus one half. -/
def jsRound (q : ℚ) : ℤ := ⌊q + 1 / 2⌋

/-- Dimension arithmetic of the aspect-fit loadAndResizeImage
(src/imageCombiner.js lines 20-40, src/unnamed/part_001 lines 24-48):
ratio = width / height; when ratio exceeds 1 the height is rounded down
from the target width, otherwise the width is rounded from the target
height. -/
def aspectFitSize (sourceWidth sourceHeight targetWidth targetHeight : Nat) : ℤ × ℤ :=
  if 1 < (sourceWidth : ℚ) / (sourceHeight : ℚ) then
    ((targetWidth : ℤ), jsRound ((targetWidth : ℚ) / ((sourceWidth : ℚ) / (sourceHeight : ℚ))))
  else
    (jsRound ((targetHeight : ℚ) * ((sourceWidth : ℚ) / (sourceHeight : ℚ))), (targetHeight : ℤ))

/-- Aspect-fit loadAndResizeImage: creates a canvas of the computed size and
lets the external library resample the source into it. -/
def loadAndResizeImageFit (img : Canvas) (targetWidth targetHeight : Nat)
    (resample : Canvas → Nat → Nat → List Nat) : Canvas :=
  { width := (aspectFitSize img.width img.height targetWidth targetHeight).1.toNat
    height := (aspectFitSize img.width img.height targetWidth targetHeight).2.toNat
    data := resample img (aspectFitSize img.width img.height targetWidth targetHeight).1.toNat
      (aspectFitSize img.width img.height targetWidth targetHeight).2.toNat }

/-- Error taxonomy named by the specification sections 4 and 7. -/
inductive CombineError where
  | dimensionMismatch
  | invalidDimensions
deriving DecidableEq

/-- Interleave contract exactly as the specification section 4.2 words it,
for comparison with combineImages: equal dimensions are a precondition and
violating it fails with DimensionMismatch, producing no output buffer. -/
def interleaveSpec (a b : Canvas) : Except CombineError Canvas :=
  if a.width = b.width ∧ a.height = b.height then
    Except.ok (combineImages a b)
  else
    Except.error CombineError.dimensionMismatch

/-- Normalize contract exactly as the specification sections 4.1 and 7 word
it, for comparison with loadAndResizeImage: a non-positive target dimension
fails with InvalidDimensions before any buffer exists. -/
def normalizeSpec (img : Canvas) (targetWidth targetHeight : Nat)
    (resample : Canvas → Nat → Nat → List Nat) : Except CombineError Canvas :=
  if targetWidth = 0 ∨ targetHeight = 0 then
    Except.error CombineError.invalidDimensions
  else
    Except.ok (loadAndResizeImage img targetWidth targetHeight resample)

/-- Default canvas used for out-of-range reads of the canvas store. -/
def emptyCanvas : Canvas := { width := 0, height := 0, data := [] }

/-- Store-level view of combineImages, making the allocation explicit:
createCanvas appends a fresh canvas to the store, drawImage of img1 and the
final putImageData write only to that fresh canvas (getImageData hands out
copies, and the loop mutates only such a copy), and the index of the fresh
canvas is returned.  Neither source entry of the store is written. -/
def combineImagesAlloc (store : List Canvas) (i1 i2 : Nat) : List Canvas × Nat :=
  let img1 := store.getD i1 emptyCanvas
  let img2 := store.getD i2 emptyCanvas
  let fresh : Canvas :=
    { width := img1.width
      height := img1.height
      data := List.replicate (img1.width * img1.height * 4) 0 }
  let drawn : Canvas :=
    { width := img1.width
      height := img1.height
      data := img1.data }
  let written : Canvas :=
    { width := img1.width
      height := img1.height
      data := combineData img1.width img1.height img2.width img2.data img1.data }
  let store1 := store ++ [fresh]
  let store2 := store1.set store.length drawn
  let store3 := store2.set store.length written
  (store3, store.length)

/-- Concrete stand-in for the external drawImage resampling: a buffer of
the right length filled with zero bytes. -/
def resampleZero : Canvas → Nat → Nat → List Nat :=
  fun _ w h => List.replicate (w * h * 4) 0

/-- Concrete 2 by 2 canvas, every pixel opaque red, from the scenario in
specification section 8. -/
def redCanvas : Canvas :=
  { width := 2, height := 2
    data := [255, 0, 0, 255, 255, 0, 0, 255, 255, 0, 0, 255, 255, 0, 0, 255] }

/-- Concrete 2 by 2 canvas, every pixel opaque blue, from the scenario in
specification section 8. -/
def blueCanvas : Canvas :=
  { width := 2, height := 2
    data := [0, 0, 255, 255, 0, 0, 255, 255, 0, 0, 255, 255, 0, 0, 255, 255] }

/-- Concrete 1 by 1 canvas with distinctive byte values. -/
def tinyCanvas : Canvas := { width := 1, height := 1, data := [10, 20, 30, 40] }

/-- Concrete 2 by 1 canvas with distinctive byte values. -/
def wideCanvas : Canvas := { width := 2, height := 1, data := [1, 2, 3, 4, 5, 6, 7, 8] }

/-- Concrete 2 by 2 canvas with pairwise distinct byte values. -/
def bigCanvas : Canvas :=
  { width := 2, height := 2
    data := [11, 12, 13, 14, 21, 22, 23, 24, 31, 32, 33, 34, 41, 42, 43, 44] }

/-- Reading a list after a set: the write is visible exactly at an in-range
written index. -/
theorem getD_set {α : Type} (l : List α) (i : Nat) (v e : α) (k : Nat) :
    (l.set i v).getD k e = if i = k ∧ i < l.length then v else l.getD k e := by
  induction l generalizing i k with
  | nil => simp
  | cons a t ih =>
    cases i with
    | zero =>
      cases k with
      | zero => simp
      | succ m => simp
    | succ n =>
      cases k with
      | zero => simp
      | succ m =>
        have h2 : (a :: t.set n v).getD (m + 1) e = (t.set n v).getD m e := by simp
        rw [List.set_cons_succ, h2, ih, List.getD_cons_succ, List.length_cons]
        by_cases h : n = m ∧ n < t.length
        · rw [if_pos h, if_pos (by omega)]
        · rw [if_neg h, if_neg (by omega)]

/-- Writing back the value already stored leaves the list unchanged. -/
theorem set_getD_self {α : Type} (l : List α) (i : Nat) (e : α) :
    l.set i (l.getD i e) = l := by
  induction l generalizing i with
  | nil => simp
  | cons a t ih =>
    cases i with
    | zero => simp
    | succ n =>
      rw [List.getD_cons_succ, List.set_cons_succ, ih]

/-- Out-of-range reads give the default. -/
theorem getD_eq_default_of_le {α : Type} (l : List α) (e : α) (k : Nat)
    (h : l.length ≤ k) : l.getD k e = e := by
  rw [List.getD_eq_getElem?_getD, List.getElem?_eq_none h]
  rfl

/-- combineStep does not change the buffer length. -/
theorem length_combineStep (w1 w2 : Nat) (d2 : List Nat) (x y : Nat) (d1 : List Nat) :
    (combineStep w1 w2 d2 x y d1).length = d1.length := by
  simp [combineStep]

/-- colLoop at zero iterations is the identity. -/
theorem colLoop_zero (w1 w2 : Nat) (d2 : List Nat) (x : Nat) (d1 : List Nat) :
    colLoop w1 w2 d2 x 0 d1 = d1 := rfl

/-- colLoop unfolds one iteration at the top row count. -/
theorem colLoop_succ (w1 w2 : Nat) (d2 : List Nat) (x n : Nat) (d1 : List Nat) :
    colLoop w1 w2 d2 x (n + 1) d1 =
      combineStep w1 w2 d2 x n (colLoop w1 w2 d2 x n d1) := by
  unfold colLoop
  rw [List.range_succ, List.foldl_append]
  rfl

/-- colLoop does not change the buffer length. -/
theorem length_colLoop (w1 w2 : Nat) (d2 : List Nat) (x n : Nat) (d1 : List Nat) :
    (colLoop w1 w2 d2 x n d1).length = d1.length := by
  induction n with
  | zero => rfl
  | succ m ih => rw [colLoop_succ, length_combineStep, ih]

/-- Effect of one combineStep on an arbitrary read position: positions at
offsets 0, 1, 2 of the written pixel now carry the corresponding source
bytes, every other position is unchanged.  The written pixel is assumed in
range of the buffer. -/
theorem getD_combineStep (w1 w2 : Nat) (d2 : List Nat) (x y : Nat) (d1 : List Nat)
    (k : Nat) (hin : (y * w1 + x) * 4 + 2 < d1.length) :
    (combineStep w1 w2 d2 x y d1).getD k 0 =
    if (y * w1 + x) * 4 ≤ k ∧ k ≤ (y * w1 + x) * 4 + 2 then
      d2.getD ((y * w2 + x) * 4 + (k - (y * w1 + x) * 4)) 0
    else d1.getD k 0 := by
  unfold combineStep
  rw [getD_set, getD_set, getD_set]
  simp only [List.length_set]
  by_cases h2 : (y * w1 + x) * 4 + 2 = k
  · rw [if_pos ⟨h2, by omega⟩, if_pos (by omega)]
    subst h2
    have h3 : (y * w1 + x) * 4 + 2 - (y * w1 + x) * 4 = 2 := by omega
    rw [h3]
  · rw [if_neg (by omega)]
    by_cases h1 : (y * w1 + x) * 4 + 1 = k
    · rw [if_pos ⟨h1, by omega⟩, if_pos (by omega)]
      subst h1
      have h3 : (y * w1 + x) * 4 + 1 - (y * w1 + x) * 4 = 1 := by omega
      rw [h3]
    · rw [if_neg (by omega)]
      by_cases h0 : (y * w1 + x) * 4 = k
      · rw [if_pos ⟨h0, by omega⟩, if_pos (by omega)]
        subst h0
        have h3 : (y * w1 + x) * 4 - (y * w1 + x) * 4 = 0 := by omega
        rw [h3, Nat.add_zero]
      · rw [if_neg (by omega), if_neg (by omega)]

/-- Splitting a pixel offset: the row-major index m * w1 + x recovers x by
reduction mod w1 and m by division, when x is a column inside the row. -/
theorem rowcol_mod (w1 x m : Nat) (hx : x < w1) : (m * w1 + x) % w1 = x := by
  rw [Nat.mul_comm, Nat.mul_add_mod, Nat.mod_eq_of_lt hx]

/-- Splitting a pixel offset: division by the row width recovers the row. -/
theorem rowcol_div (w1 x m : Nat) (hx : x < w1) : (m * w1 + x) / w1 = m := by
  rw [Nat.mul_comm, Nat.mul_add_div (by omega), Nat.div_eq_of_lt hx, Nat.add_zero]

/-- Effect of the inner row loop at column x on an arbitrary read position
k: positions whose pixel lies in column x, in a processed row, and at a
red, green or blue offset now carry the source byte at the corresponding
index computed with the source width w2; all other positions are
unchanged. -/
theorem getD_colLoop (w1 h1 w2 : Nat) (d2 : List Nat) (x : Nat) (hx : x < w1)
    (d1 : List Nat) (hlen : d1.length = w1 * h1 * 4) (k : Nat)
    (n : Nat) (hn : n ≤ h1) :
    (colLoop w1 w2 d2 x n d1).getD k 0 =
    if k / 4 % w1 = x ∧ k / 4 / w1 < n ∧ k % 4 < 3 then
      d2.getD ((k / 4 / w1 * w2 + x) * 4 + k % 4) 0
    else d1.getD k 0 := by
  induction n with
  | zero =>
    rw [colLoop_zero, if_neg (fun h => absurd h.2.1 (Nat.not_lt_zero _))]
  | succ m ih =>
    have hm : m ≤ h1 := by omega
    have hmw : (m + 1) * w1 ≤ h1 * w1 := Nat.mul_le_mul_right w1 (by omega)
    have hmw2 : m * w1 + x < (m + 1) * w1 := by rw [Nat.succ_mul]; omega
    have hcm : h1 * w1 = w1 * h1 := Nat.mul_comm h1 w1
    have hin : (m * w1 + x) * 4 + 2 < (colLoop w1 w2 d2 x m d1).length := by
      rw [length_colLoop, hlen]
      omega
    rw [colLoop_succ, getD_combineStep _ _ _ _ _ _ _ hin, ih hm]
    by_cases hA : (m * w1 + x) * 4 ≤ k ∧ k ≤ (m * w1 + x) * 4 + 2
    · have hk4 : k / 4 = m * w1 + x := by omega
      have hkm : k % 4 = k - (m * w1 + x) * 4 := by omega
      have hm1 : (m * w1 + x) % w1 = x := rowcol_mod w1 x m hx
      have hm2 : (m * w1 + x) / w1 = m := rowcol_div w1 x m hx
      rw [if_pos hA, hk4, hm1, hm2, if_pos ⟨rfl, by omega, by omega⟩, hkm]
    · rw [if_neg hA]
      by_cases hB : k / 4 % w1 = x ∧ k / 4 / w1 < m ∧ k % 4 < 3
      · rw [if_pos hB, if_pos ⟨hB.1, by omega, hB.2.2⟩]
      · rw [if_neg hB, if_neg ?ng]
        case ng =>
          intro hC
          obtain ⟨hC1, hC2, hC3⟩ := hC
          have hnm : ¬ k / 4 / w1 < m := fun h => hB ⟨hC1, h, hC3⟩
          have hrow : k / 4 / w1 = m := by omega
          have hd := Nat.div_add_mod (k / 4) w1
          rw [hrow, hC1] at hd
          have hmc : w1 * m = m * w1 := Nat.mul_comm w1 m
          exact hA ⟨by omega, by omega⟩

/-- Effect of running the row loop for every column in a list xs of
columns: a position is rewritten exactly when its column belongs to xs (in
a valid row and at a red, green or blue offset), and the written byte
depends only on the source buffer, so later columns never disturb earlier
ones. -/
theorem getD_colsFold (w1 h1 w2 : Nat) (d2 : List Nat) (xs : List Nat)
    (hxs : ∀ z ∈ xs, z < w1) (d1 : List Nat) (hlen : d1.length = w1 * h1 * 4)
    (k : Nat) :
    (xs.foldl (fun d x => colLoop w1 w2 d2 x h1 d) d1).getD k 0 =
    if k / 4 % w1 ∈ xs ∧ k / 4 / w1 < h1 ∧ k % 4 < 3 then
      d2.getD ((k / 4 / w1 * w2 + k / 4 % w1) * 4 + k % 4) 0
    else d1.getD k 0 := by
  induction xs generalizing d1 with
  | nil =>
    rw [List.foldl_nil, if_neg (fun h => absurd h.1 (List.not_mem_nil _))]
  | cons x t ih =>
    have hx : x < w1 := hxs x (List.mem_cons_self x t)
    have hxs2 : ∀ z ∈ t, z < w1 := fun z hz => hxs z (List.mem_cons_of_mem x hz)
    have hlen2 : (colLoop w1 w2 d2 x h1 d1).length = w1 * h1 * 4 := by
      rw [length_colLoop, hlen]
    rw [List.foldl_cons, ih hxs2 _ hlen2,
      getD_colLoop w1 h1 w2 d2 x hx d1 hlen k h1 le_rfl]
    by_cases hT : k / 4 % w1 ∈ t ∧ k / 4 / w1 < h1 ∧ k % 4 < 3
    · rw [if_pos hT, if_pos ⟨List.mem_cons_of_mem x hT.1, hT.2⟩]
    · rw [if_neg hT]
      by_cases hX : k / 4 % w1 = x ∧ k / 4 / w1 < h1 ∧ k % 4 < 3
      · rw [if_pos ⟨hX.1, hX.2.1, hX.2.2⟩, hX.1,
          if_pos ⟨List.mem_cons_self x t, hX.2⟩]
      · rw [if_neg (fun h => hX ⟨h.1, h.2⟩), if_neg ?ng]
        case ng =>
          intro hC
          rcases List.mem_cons.mp hC.1 with hc1 | hc1
          · exact hX ⟨hc1, hC.2⟩
          · exact hT ⟨hc1, hC.2⟩

/-- Membership in the even-column iteration list of the outer loop. -/
theorem mem_evenCols (w1 z : Nat) :
    z ∈ (List.range w1).filter (fun x => decide (x % 2 = 0)) ↔
      z < w1 ∧ z % 2 = 0 := by
  rw [List.mem_filter, List.mem_range]
  simp

/-- Pointwise description of the double loop of combineImages on a buffer
of the correct length: position k is rewritten exactly when its pixel sits
in an even column and a valid row and k addresses a red, green or blue
byte; the new byte is read from the source buffer at the index the loop
computes with the source width w2, and every other position keeps the
original byte. -/
theorem getD_combineData (w1 h1 w2 : Nat) (d2 d1 : List Nat)
    (hlen : d1.length = w1 * h1 * 4) (k : Nat) :
    (combineData w1 h1 w2 d2 d1).getD k 0 =
    if (k / 4 % w1 < w1 ∧ k / 4 % w1 % 2 = 0) ∧ k / 4 / w1 < h1 ∧ k % 4 < 3 then
      d2.getD ((k / 4 / w1 * w2 + k / 4 % w1) * 4 + k % 4) 0
    else d1.getD k 0 := by
  unfold combineData
  rw [getD_colsFold w1 h1 w2 d2 _ (fun z hz => ((mem_evenCols w1 z).mp hz).1) d1 hlen k]
  by_cases hM : k / 4 % w1 < w1 ∧ k / 4 % w1 % 2 = 0
  · rw [if_congr (iff_of_eq (congrArg (fun p => p ∧ k / 4 / w1 < h1 ∧ k % 4 < 3)
      (propext ⟨fun _ => hM, fun _ => (mem_evenCols w1 _).mpr hM⟩))) rfl rfl]
  · rw [if_neg (fun h => hM ((mem_evenCols w1 _).mp h.1)),
      if_neg (fun h => hM h.1)]

/-- combineData does not change the buffer length. -/
theorem length_combineData (w1 h1 w2 : Nat) (d2 d1 : List Nat) :
    (combineData w1 h1 w2 d2 d1).length = d1.length := by
  unfold combineData
  generalize (List.range w1).filter (fun x => decide (x % 2 = 0)) = xs
  induction xs generalizing d1 with
  | nil => rfl
  | cons x t ih => rw [List.foldl_cons, ih, length_colLoop]

/-- Channel-level description of combineImages on a well-formed first
buffer: inside the grid of the first image, an even-column red, green or
blue byte comes from the second buffer at the index computed with the
second image width, and every other byte is the first image byte. -/
theorem channel_combineImages (a b : Canvas) (ha : a.data.length = a.width * a.height * 4)
    (x y c : Nat) (hx : x < a.width) (hy : y < a.height) (hc : c < 4) :
    channel (combineImages a b) x y c =
    if x % 2 = 0 ∧ c < 3 then b.data.getD ((y * b.width + x) * 4 + c) 0
    else channel a x y c := by
  have hk4 : ((y * a.width + x) * 4 + c) / 4 = y * a.width + x := by omega
  have hkm : ((y * a.width + x) * 4 + c) % 4 = c := by omega
  have hm1 : (y * a.width + x) % a.width = x := rowcol_mod _ x y hx
  have hm2 : (y * a.width + x) / a.width = y := rowcol_div _ x y hx
  unfold channel combineImages
  dsimp only
  rw [getD_combineData a.width a.height b.width b.data a.data ha, hk4, hkm, hm1, hm2]
  by_cases h : x % 2 = 0 ∧ c < 3
  · rw [if_pos ⟨⟨hx, h.1⟩, hy, h.2⟩, if_pos h]
  · rw [if_neg (fun hh => h ⟨hh.1.2, hh.2.2⟩), if_neg h]

/-- Folding a function that fixes the accumulator fixes the fold. -/
theorem foldl_fixed {α β : Type} (f : α → β → α) (d : α) (h : ∀ x, f d x = d) :
    ∀ xs : List β, xs.foldl f d = d := by
  intro xs
  induction xs with
  | nil => rfl
  | cons x t ih =>
    rw [List.foldl_cons, h x]
    exact ih

/-- A combineStep of a buffer onto itself with equal widths rewrites every
touched byte with its own value. -/
theorem combineStep_self (w : Nat) (d : List Nat) (x y : Nat) :
    combineStep w w d x y d = d := by
  unfold combineStep
  rw [set_getD_self, set_getD_self, set_getD_self]

/-- The row loop of a buffer onto itself is the identity. -/
theorem colLoop_self (w : Nat) (d : List Nat) (x n : Nat) :
    colLoop w w d x n d = d :=
  foldl_fixed _ _ (fun y => combineStep_self w d x y) _

/-- The double loop of a buffer onto itself is the identity. -/
theorem combineData_self (w h : Nat) (d : List Nat) :
    combineData w h w d d = d :=
  foldl_fixed _ _ (fun x => colLoop_self w d x h) _

/-- Reading an appended list below the original length reads the original
list. -/
theorem getD_append_left {α : Type} (l1 l2 : List α) (e : α) (k : Nat)
    (h : k < l1.length) : (l1 ++ l2).getD k e = l1.getD k e := by
  rw [List.getD_eq_getElem?_getD, List.getD_eq_getElem?_getD,
    List.getElem?_append_left h]

/-- Rounding a natural number does not change it. -/
theorem jsRound_natCast (n : Nat) : jsRound (n : ℚ) = n := by
  unfold jsRound
  rw [add_comm, Int.floor_add_nat]
  norm_num

/-- C1: for equally sized buffers, every pixel of the combined image inside
the grid satisfies the partial channel swap: at an even column the red,
green and blue bytes are the second image bytes at the same position and
the alpha byte is the first image alpha; at an odd column all four bytes
are the first image bytes. -/
theorem interleave_even_odd_pixels (a b : Canvas)
    (ha : a.data.length = a.width * a.height * 4)
    (_hw : a.width = b.width) (_hh : a.height = b.height)
    (x y c : Nat) (hx : x < a.width) (hy : y < a.height) (hc : c < 4) :
    channel (combineImages a b) x y c =
      if x % 2 = 0 ∧ c < 3 then channel b x y c else channel a x y c := by
  rw [channel_combineImages a b ha x y c hx hy hc]
  rfl

/-- C1 witness: concrete red and blue 2 by 2 canvases from the
specification scenario. -/
theorem interleave_even_odd_pixels_witness :
    redCanvas.data.length = redCanvas.width * redCanvas.height * 4 ∧
    redCanvas.width = blueCanvas.width ∧
    channel (combineImages redCanvas blueCanvas) 0 0 0 =
      if 0 % 2 = 0 ∧ 0 < 3 then channel blueCanvas 0 0 0 else channel redCanvas 0 0 0 :=
  ⟨by decide, by decide,
    interleave_even_odd_pixels redCanvas blueCanvas (by decide) (by decide) (by decide)
      0 0 0 (by decide) (by decide) (by decide)⟩

/-- C2 counterexample: combineImages applied to a 1 by 1 and a 2 by 1
canvas does not fail; it produces a full output buffer, contradicting the
contract that mismatched dimensions fail with DimensionMismatch and
produce no output. -/
theorem interleave_mismatch_returns_output :
    Except.ok (combineImages tinyCanvas wideCanvas) ≠
      interleaveSpec tinyCanvas wideCanvas ∧
    combineImages tinyCanvas wideCanvas =
      { width := 1, height := 1, data := [1, 2, 3, 40] } := by
  constructor
  · intro h
    rw [show interleaveSpec tinyCanvas wideCanvas =
        Except.error CombineError.dimensionMismatch from rfl] at h
    exact Except.noConfusion h
  · decide

/-- C2 amended: combineImages checks nothing and never fails; for every
pair of buffers, mismatched or not, it returns a buffer with the first
image dimensions and data length. -/
theorem combineImages_total_dims (a b : Canvas) :
    (combineImages a b).width = a.width ∧
    (combineImages a b).height = a.height ∧
    (combineImages a b).data.length = a.data.length :=
  ⟨rfl, rfl, length_combineData a.width a.height b.width b.data a.data⟩

/-- C3: aspect-fit output dimensions follow the claimed formula; with a
positive source height, a source wider than tall yields width equal to the
target width and height equal to the rounded target width times source
height over source width, any other source yields height equal to the
target height and width equal to the rounded target height times source
width over source height; a square source takes the else branch and yields
the target height on both axes. -/
theorem aspectFit_dims_formula (sw sh tw th : Nat) (hsh : 0 < sh) :
    (aspectFitSize sw sh tw th =
      if sh < sw then ((tw : ℤ), jsRound ((tw : ℚ) * (sh : ℚ) / (sw : ℚ)))
      else (jsRound ((th : ℚ) * (sw : ℚ) / (sh : ℚ)), (th : ℤ))) ∧
    (sw = sh → aspectFitSize sw sh tw th = ((th : ℤ), (th : ℤ))) := by
  have hs : (0 : ℚ) < (sh : ℚ) := by exact_mod_cast hsh
  have hiff : 1 < (sw : ℚ) / (sh : ℚ) ↔ sh < sw := by
    rw [one_lt_div hs]
    exact_mod_cast Iff.rfl
  constructor
  · unfold aspectFitSize
    by_cases hlt : sh < sw
    · rw [if_pos (hiff.mpr hlt), if_pos hlt, div_div_eq_mul_div]
    · rw [if_neg (fun h => hlt (hiff.mp h)), if_neg hlt, mul_div_assoc]
  · intro he
    have hone : (sw : ℚ) / (sh : ℚ) = 1 := by
      rw [he, div_self (Nat.cast_ne_zero.mpr (by omega))]
    unfold aspectFitSize
    rw [hone, if_neg (lt_irrefl 1), mul_one, jsRound_natCast]

/-- C3 witness: the specification scenario, a 200 by 100 source in a
100 by 100 box. -/
theorem aspectFit_dims_formula_witness :
    0 < 100 ∧
    ((aspectFitSize 200 100 100 100 =
      if 100 < 200 then ((100 : ℤ), jsRound ((100 : ℚ) * (100 : ℚ) / (200 : ℚ)))
      else (jsRound ((100 : ℚ) * (200 : ℚ) / (100 : ℚ)), (100 : ℤ))) ∧
    (200 = 100 → aspectFitSize 200 100 100 100 = ((100 : ℤ), (100 : ℤ)))) :=
  ⟨by norm_num, aspectFit_dims_formula 200 100 100 100 (by norm_num)⟩

/-- C4 counterexample: a square 1 by 1 source in a 1 by 3 box produces a
3 by 3 output, whose width exceeds the box width 1, contradicting the
claim that aspect-fit output never exceeds the box on either axis. -/
theorem aspectFit_exceeds_box :
    ¬ ((aspectFitSize 1 1 1 3).1 ≤ 1 ∧ (aspectFitSize 1 1 1 3).2 ≤ 3) := by
  have h : aspectFitSize 1 1 1 3 = (3, 3) := by norm_num [aspectFitSize, jsRound]
  rw [h]
  decide

/-- C4 amended: one output axis always equals its box dimension, the width
when the ratio check fires and the height otherwise; the other axis is the
rounded scale of the box dimension and may exceed its own bound, so
containment in the box does not hold in general. -/
theorem aspectFit_touches_box (sw sh tw th : Nat) :
    (aspectFitSize sw sh tw th).1 = tw ∨ (aspectFitSize sw sh tw th).2 = th := by
  unfold aspectFitSize
  by_cases h : 1 < (sw : ℚ) / (sh : ℚ)
  · rw [if_pos h]
    exact Or.inl rfl
  · rw [if_neg h]
    exact Or.inr rfl

/-- C5: stretch normalization returns a buffer of exactly the requested
positive target size, whatever the source image and whatever the external
resampler produces. -/
theorem stretch_exact_dims (img : Canvas) (w h : Nat)
    (r : Canvas → Nat → Nat → List Nat) (_hw : 0 < w) (_hh : 0 < h) :
    (loadAndResizeImage img w h r).width = w ∧
    (loadAndResizeImage img w h r).height = h :=
  ⟨rfl, rfl⟩

/-- C5 witness: a concrete 3 by 2 stretch of the 1 by 1 canvas. -/
theorem stretch_exact_dims_witness :
    0 < 3 ∧ 0 < 2 ∧
    ((loadAndResizeImage tinyCanvas 3 2 resampleZero).width = 3 ∧
      (loadAndResizeImage tinyCanvas 3 2 resampleZero).height = 2) :=
  ⟨by decide, by decide, stretch_exact_dims tinyCanvas 3 2 resampleZero (by decide) (by decide)⟩

/-- C6: the stretch pipeline feeds both normalization calls the
componentwise minimum of the two natural sizes, and both resized buffers
carry exactly those dimensions, so interleave always receives
equally-sized buffers. -/
theorem processImages_common_min_size (img1 img2 : Canvas)
    (r : Canvas → Nat → Nat → List Nat) :
    processImages img1 img2 r =
      combineImages
        (loadAndResizeImage img1 (min img1.width img2.width)
          (min img1.height img2.height) r)
        (loadAndResizeImage img2 (min img1.width img2.width)
          (min img1.height img2.height) r) ∧
    (loadAndResizeImage img1 (min img1.width img2.width)
      (min img1.height img2.height) r).width = min img1.width img2.width ∧
    (loadAndResizeImage img1 (min img1.width img2.width)
      (min img1.height img2.height) r).height = min img1.height img2.height ∧
    (loadAndResizeImage img2 (min img1.width img2.width)
      (min img1.height img2.height) r).width =
      (loadAndResizeImage img1 (min img1.width img2.width)
        (min img1.height img2.height) r).width ∧
    (loadAndResizeImage img2 (min img1.width img2.width)
      (min img1.height img2.height) r).height =
      (loadAndResizeImage img1 (min img1.width img2.width)
        (min img1.height img2.height) r).height :=
  ⟨rfl, rfl, rfl, rfl, rfl⟩

/-- C7 counterexample: loadAndResizeImage with target width 0 does not
reject the size; it returns a canvas of width 0 and height 5, while the
contract demands an InvalidDimensions failure with no buffer. -/
theorem normalize_accepts_zero_target :
    Except.ok (loadAndResizeImage tinyCanvas 0 5 resampleZero) ≠
      normalizeSpec tinyCanvas 0 5 resampleZero ∧
    (loadAndResizeImage tinyCanvas 0 5 resampleZero).width = 0 ∧
    (loadAndResizeImage tinyCanvas 0 5 resampleZero).height = 5 := by
  refine ⟨?_, rfl, rfl⟩
  intro h
  rw [show normalizeSpec tinyCanvas 0 5 resampleZero =
      Except.error CombineError.invalidDimensions from rfl] at h
  exact Except.noConfusion h

/-- C7 amended: loadAndResizeImage performs no validation of the target
size at all; it always hands the requested dimensions, zero included, to
the external canvas factory and returns the canvas so built. -/
theorem loadAndResizeImage_no_validation (img : Canvas) (tw th : Nat)
    (r : Canvas → Nat → Nat → List Nat) :
    loadAndResizeImage img tw th r = { width := tw, height := th, data := r img tw th } :=
  rfl

/-- C8: combining a buffer with itself returns a buffer identical to it in
every byte; each write stores the byte already present, because source and
destination indices coincide when the widths coincide. -/
theorem interleave_self_identity (a : Canvas) : combineImages a a = a := by
  unfold combineImages
  rw [combineData_self]

/-- C9: the store-level combine allocates a fresh canvas at the end of the
store, returns its index, and leaves every existing entry of the store,
the two sources included, exactly as it was; the fresh entry holds the
combined image. -/
theorem combineImagesAlloc_preserves_sources (store : List Canvas) (i1 i2 k : Nat)
    (hk : k < store.length) :
    (combineImagesAlloc store i1 i2).1.getD k emptyCanvas = store.getD k emptyCanvas ∧
    (combineImagesAlloc store i1 i2).2 = store.length ∧
    (combineImagesAlloc store i1 i2).1.getD store.length emptyCanvas =
      combineImages (store.getD i1 emptyCanvas) (store.getD i2 emptyCanvas) := by
  unfold combineImagesAlloc
  dsimp only
  refine ⟨?_, rfl, ?_⟩
  · rw [getD_set, if_neg (fun h => absurd h.1 (by omega)),
      getD_set, if_neg (fun h => absurd h.1 (by omega)),
      getD_append_left _ _ _ _ hk]
  · rw [getD_set, if_pos ⟨rfl, by simp⟩]
    rfl

/-- C9 witness: a two-canvas store. -/
theorem combineImagesAlloc_preserves_sources_witness :
    0 < [tinyCanvas, wideCanvas].length ∧
    ((combineImagesAlloc [tinyCanvas, wideCanvas] 0 1).1.getD 0 emptyCanvas =
        [tinyCanvas, wideCanvas].getD 0 emptyCanvas ∧
      (combineImagesAlloc [tinyCanvas, wideCanvas] 0 1).2 =
        [tinyCanvas, wideCanvas].length ∧
      (combineImagesAlloc [tinyCanvas, wideCanvas] 0 1).1.getD
          [tinyCanvas, wideCanvas].length emptyCanvas =
        combineImages ([tinyCanvas, wideCanvas].getD 0 emptyCanvas)
          ([tinyCanvas, wideCanvas].getD 1 emptyCanvas)) :=
  ⟨by decide, combineImagesAlloc_preserves_sources [tinyCanvas, wideCanvas] 0 1 0 (by decide)⟩

/-- C10: combineImages is total on arbitrary input pairs, mismatched
dimensions included; the output always carries the first image dimensions
and data length, the even-column read index is computed with the second
image width, and a read beyond the second buffer stores byte 0. -/
theorem combineImages_mismatch_behavior (a b : Canvas)
    (ha : a.data.length = a.width * a.height * 4)
    (x y c : Nat) (hx : x < a.width) (hy : y < a.height) (hc : c < 3)
    (hev : x % 2 = 0) :
    (combineImages a b).width = a.width ∧
    (combineImages a b).height = a.height ∧
    (combineImages a b).data.length = a.data.length ∧
    channel (combineImages a b) x y c = b.data.getD ((y * b.width + x) * 4 + c) 0 ∧
    (b.data.length ≤ (y * b.width + x) * 4 + c →
      channel (combineImages a b) x y c = 0) := by
  have hch := channel_combineImages a b ha x y c hx hy (by omega)
  rw [if_pos ⟨hev, hc⟩] at hch
  refine ⟨rfl, rfl, length_combineData a.width a.height b.width b.data a.data, hch, ?_⟩
  intro hout
  rw [hch, getD_eq_default_of_le _ _ _ hout]

/-- C10 witness: a 2 by 2 first image against a 1 by 1 second image; at
column 0, row 1 the read index 4 falls outside the second buffer and the
stored byte is 0. -/
theorem combineImages_mismatch_behavior_witness :
    bigCanvas.data.length = bigCanvas.width * bigCanvas.height * 4 ∧
    0 < bigCanvas.width ∧ 1 < bigCanvas.height ∧
    ((combineImages bigCanvas tinyCanvas).width = bigCanvas.width ∧
      (combineImages bigCanvas tinyCanvas).height = bigCanvas.height ∧
      (combineImages bigCanvas tinyCanvas).data.length = bigCanvas.data.length ∧
      channel (combineImages bigCanvas tinyCanvas) 0 1 0 =
        tinyCanvas.data.getD ((1 * tinyCanvas.width + 0) * 4 + 0) 0 ∧
      (tinyCanvas.data.length ≤ (1 * tinyCanvas.width + 0) * 4 + 0 →
        channel (combineImages bigCanvas tinyCanvas) 0 1 0 = 0)) :=
  ⟨by decide, by decide, by decide,
    combineImages_mismatch_behavior bigCanvas tinyCanvas (by decide) 0 1 0
      (by decide) (by decide) (by decide) (by decide)⟩
